import Mathlib

/-!
Shallow embedding of the image-format converter (repository
`arzummammadova/images-convertor`).

The repository holds two versions of the application: the bidirectional
converter (`tracePath`, `convertImageDataToSvg`, `convertSvgToRaster`,
`convertRasterToSvg`, `extractPaths`) and an older SVG-only version whose
`convertToFormat` differs only in how it filters the artifact list.

Pixel buffers are modelled as flat `List Nat` of RGBA byte quadruples
(row-major, origin top-left), exactly the layout of browser `ImageData.data`.
Coordinates inside the flood fill are `Int` because neighbor offsets go
negative.  JS real division `(r+g+b)/3` is only ever compared against an
integer threshold, and for naturals `⌊s/3⌋ < t ↔ s/3 < t` and
`⌊s/3⌋ ≥ t ↔ s/3 ≥ t`, so `Nat` floor division models those comparisons
exactly.
-/

/-- Read of `imageData.data[i]`: in-range reads return the stored byte.  The
source only reads in-range indices for well-formed buffers; a browser
`ImageData` always has `data.length = width * height * 4`. -/
def channel (data : List Nat) (i : Nat) : Nat := data.getD i 0

/-- Brightness of the sample at `(x, y)`: the unweighted mean of the red,
green and blue channels at `index = (y * width + x) * 4` (source lines
241-245).  Only evaluated at nonnegative coordinates. -/
def brightnessAt (data : List Nat) (width : Nat) (x y : Int) : Nat :=
  let index := (y.toNat * width + x.toNat) * 4
  (channel data index + channel data (index + 1) + channel data (index + 2)) / 3

/-- The 8 grid-neighbor offsets at stride 4, in the source's iteration order:
`dx` outer from -4 to 4 step 4, `dy` inner likewise, skipping `(0, 0)`
(source lines 253-258). -/
def neighborOffsets : List (Int × Int) :=
  [(-4, -4), (-4, 0), (-4, 4), (0, -4), (0, 4), (4, -4), (4, 0), (4, 4)]

/-- Push every grid neighbor of `p` onto the stack in `neighborOffsets` order.
The stack top is the list head, so the last-pushed neighbor is popped
first, as with a JS array's `push`/`pop`. -/
def pushNeighbors (p : Int × Int) (stack : List (Int × Int)) : List (Int × Int) :=
  neighborOffsets.foldl (fun s d => (p.1 + d.1, p.2 + d.2) :: s) stack

/-- The flood-fill loop of the source's `tracePath` (lines 235-259): while the
stack is nonempty and fewer than 50 points are collected, pop a point; skip
it if already visited or out of bounds; skip it (without visiting) if its
brightness is at or above the threshold; otherwise mark it visited, append
it to the point list and push its 8 stride-4 neighbors.  Returns the
collected points in order together with the final visited set (the source
mutates a shared `Set`; here it is threaded explicitly). -/
def traceLoop (data : List Nat) (width height threshold : Nat)
    (stack visited points : List (Int × Int)) :
    List (Int × Int) × List (Int × Int) :=
  match stack with
  | [] => (points, visited)
  | p :: rest =>
    if h : points.length < 50 then
      if p ∈ visited ∨ p.1 < 0 ∨ (width : Int) ≤ p.1 ∨ p.2 < 0 ∨ (height : Int) ≤ p.2 then
        traceLoop data width height threshold rest visited points
      else if threshold ≤ brightnessAt data width p.1 p.2 then
        traceLoop data width height threshold rest visited points
      else
        traceLoop data width height threshold (pushNeighbors p rest)
          (p :: visited) (points ++ [p])
    else (points, visited)
termination_by 8 * (50 - points.length) + stack.length
decreasing_by
  all_goals
    simp only [pushNeighbors, neighborOffsets, List.foldl, List.length_cons,
      List.length_append, List.length_nil]
    omega

/-- Path-string rendering of a collected region (source lines 263-267): move
to the first point, a line to each subsequent point in collection order,
then close.  The source indexes `points[0]` unconditionally but is only
reached with at least 3 points, so the `[]` case is unreachable there. -/
def buildPath (points : List (Int × Int)) : String :=
  match points with
  | [] => " Z"
  | p :: rest =>
    (rest.foldl (fun acc q => acc ++ " L " ++ toString q.1 ++ " " ++ toString q.2)
      ("M " ++ toString p.1 ++ " " ++ toString p.2)) ++ " Z"

/-- Source `tracePath` (lines 231-270): run the flood fill from the seed with
an empty point list and a singleton stack; regions with fewer than 3 points
yield the empty string.  The updated visited set is returned alongside
(the source mutates it in place, also for discarded regions). -/
def tracePath (startX startY : Int) (data : List Nat) (width height threshold : Nat)
    (visited : List (Int × Int)) : String × List (Int × Int) :=
  let r := traceLoop data width height threshold [(startX, startY)] visited []
  if r.1.length < 3 then ("", r.2) else (buildPath r.1, r.2)

/-- An emitted `<path …/>` element: geometry string, fill color string, and
the raw alpha byte of the origin sample (serialized as `alpha / 255`). -/
structure SvgPathElem where
  d : String
  fill : String
  alpha : Nat
deriving DecidableEq

/-- One iteration of the sampling double loop of `convertImageDataToSvg`
(source lines 203-224): skip visited samples; where brightness is below the
threshold and alpha exceeds 128, trace a region, and emit a path element
exactly when the returned path string is longer than 10 characters.  The
visited set is updated by the trace also when no element is emitted. -/
def processSample (data : List Nat) (width height threshold : Nat)
    (st : List (Int × Int) × List SvgPathElem) (xy : Nat × Nat) :
    List (Int × Int) × List SvgPathElem :=
  if ((xy.1 : Int), (xy.2 : Int)) ∈ st.1 then st
  else
    let index := (xy.2 * width + xy.1) * 4
    let r := channel data index
    let g := channel data (index + 1)
    let b := channel data (index + 2)
    let a := channel data (index + 3)
    if (r + g + b) / 3 < threshold ∧ 128 < a then
      let res := tracePath xy.1 xy.2 data width height threshold st.1
      if 10 < res.1.length then
        (res.2, st.2 ++
          [⟨res.1, "rgb(" ++ toString r ++ "," ++ toString g ++ "," ++ toString b ++ ")", a⟩])
      else (res.2, st.2)
    else st

/-- The row-major sampling grid: `for (y = 0; y < height; y += 4)` outer,
`for (x = 0; x < width; x += 4)` inner (source lines 203-204).  The number
of multiples of 4 below `n` is `(n + 3) / 4`. -/
def sampleCoords (width height : Nat) : List (Nat × Nat) :=
  (List.range' 0 ((height + 3) / 4) 4).flatMap fun y =>
    (List.range' 0 ((width + 3) / 4) 4).map fun x => (x, y)

/-- The whole sampling loop of `convertImageDataToSvg`, started from an empty
visited set and no emitted elements. -/
def convertLoop (data : List Nat) (width height threshold : Nat) :
    List (Int × Int) × List SvgPathElem :=
  (sampleCoords width height).foldl (processSample data width height threshold) ([], [])

/-- Decimal rendering of the JS number `a / 255` interpolated at source line
220.  Exact at every alpha any theorem below evaluates: multiples of 255
give an integer ("0", "1") and multiples of 51 give an exact one-digit
decimal ("0.2" … "0.8"), matching JS output there.  For other alphas JS
prints the shortest round-trip decimal of the IEEE-754 double; that branch
is approximated by the truncated 16-digit expansion of the exact rational
and is not relied on by any theorem. -/
def opacityString (a : Nat) : String :=
  if a % 255 = 0 then toString (a / 255)
  else if a % 51 = 0 then "0." ++ toString (a / 51 * 2)
  else
    "0." ++ String.mk (List.replicate (16 - (toString (a * 10 ^ 16 / 255)).length) '0') ++
      toString (a * 10 ^ 16 / 255)

/-- Serialization of one emitted path element (source line 220), including
the trailing newline appended to `svgPaths`. -/
def pathElemString (e : SvgPathElem) : String :=
  "<path d=\"" ++ e.d ++ "\" fill=\"" ++ e.fill ++ "\" opacity=\"" ++
    opacityString e.alpha ++ "\" />\n"

/-- Source `convertImageDataToSvg` (lines 195-229): the concatenated path
elements wrapped in the root `<svg>` element of the given width/height. -/
def convertImageDataToSvg (data : List Nat) (width height threshold : Nat) : String :=
  "<svg width=\"" ++ toString width ++ "\" height=\"" ++ toString height ++
    "\" xmlns=\"http://www.w3.org/2000/svg\">\n" ++
    String.join ((convertLoop data width height threshold).2.map pathElemString) ++
    "\n</svg>"

/-- JS truthiness of a `string | null` value: `null` and the empty string are
falsy (`Boolean("")` is `false`), every other string is truthy. -/
def jsTruthy : Option String → Bool
  | none => false
  | some s => s ≠ ""

/-- Source `extractPaths` (bidirectional version lines 89-95, older version
lines 59-65): `paths.map(p => p.getAttribute('d')).filter(Boolean)`.  The
parsed document is abstracted to the document-ordered list of its `path`
elements' `d`-attribute values, `getAttribute` returning the string or
`null`; `DOMParser`/`querySelectorAll` are the browser primitives that
produce exactly that sequence in document order. -/
def extractPaths (pathAttrs : List (Option String)) : List String :=
  pathAttrs.filterMap fun o => if jsTruthy o then o else none

/-- An entry of the converted-artifact list (`interface ConvertedFile`). -/
structure ConvertedFile where
  name : String
  url : String
  format : String
deriving DecidableEq

/-- ASCII uppercasing: the behavior of JS `String.prototype.toUpperCase` on
the format names used here ("png", "jpeg"). -/
def jsToUpper (s : String) : String := String.mk (s.toList.map Char.toUpper)

/-- The artifact-list update performed by the bidirectional version's
`convertSvgToRaster` in the `toBlob` callback (source part_000 lines
130-137): drop every previous artifact whose format tag equals the
uppercased target format, then append the new artifact tagged with the
uppercased format. -/
def convertSvgToRasterUpdate (prev : List ConvertedFile) (format name url : String) :
    List ConvertedFile :=
  prev.filter (fun f => f.format ≠ jsToUpper format) ++ [⟨name, url, jsToUpper format⟩]

/-- The artifact-list update performed by the older version's
`convertToFormat` (source src/App.tsx lines 100-107): identical except
that the filter compares the stored tag against the *lowercase* `format`
parameter, while the stored tag is uppercased on insertion. -/
def convertToFormatUpdate (prev : List ConvertedFile) (format name url : String) :
    List ConvertedFile :=
  prev.filter (fun f => f.format ≠ format) ++ [⟨name, url, jsToUpper format⟩]

/-- Outcome of loading an image element: either its `onload` continuation
fires, or loading fails.  The source installs no `onerror` handler, so on
failure no continuation runs at all. -/
inductive ImgLoadOutcome
  | loads
  | fails
deriving DecidableEq

/-- The host-environment behavior one `convertSvgToRaster` run observes:
whether a 2D canvas context is available, whether the source image
decodes, and the object URL that `canvas.toBlob` followed by
`createObjectURL` produces (`none` when encoding fails and the callback
receives `null`). -/
structure RasterEnv where
  ctxOk : Bool
  imgLoad : ImgLoadOutcome
  encoded : Option String

/-- Observable outcome of one `convertSvgToRaster` run: whether the
temporary object URL for the source markup was allocated, whether it was
revoked, the resulting artifact list, and the final `isConverting` flag. -/
structure RasterResult where
  urlAllocated : Bool
  urlRevoked : Bool
  files : List ConvertedFile
  converting : Bool

/-- Source `convertSvgToRaster` (part_000 lines 97-150), the
continuation-structured control flow as a function of the observed
environment.  `setIsConverting(true)` runs first; if no 2D context is
available the function returns before the object URL is allocated.
Otherwise the URL is allocated and `img.onload` is installed: if the image
never loads, no continuation runs — the URL is never revoked and the
artifact list stays untouched; if it loads, `URL.revokeObjectURL` runs
inside `onload` unconditionally, and the `toBlob` callback updates the
list exactly when a blob was produced, resetting `isConverting` either
way.  The file name is passed in (the source derives it from the uploaded
file's name).  The older version's `convertToFormat` has the same control
flow around its own list update. -/
def convertSvgToRaster (env : RasterEnv) (format fileName : String)
    (prev : List ConvertedFile) : RasterResult :=
  if env.ctxOk = false then ⟨false, false, prev, true⟩
  else
    match env.imgLoad with
    | .fails => ⟨true, false, prev, true⟩
    | .loads =>
      match env.encoded with
      | some convertedUrl =>
        ⟨true, true, convertSvgToRasterUpdate prev format fileName convertedUrl, false⟩
      | none => ⟨true, true, prev, false⟩

/-- The host-environment behavior one `convertRasterToSvg` run observes:
whether the uploaded raster decodes, whether a 2D context is available,
and the decoded image's dimensions and pixel data read back from the
canvas. -/
structure TraceEnv where
  imgLoad : ImgLoadOutcome
  ctxOk : Bool
  imgWidth : Nat
  imgHeight : Nat
  pixels : List Nat

/-- Source `convertRasterToSvg` (part_000 lines 152-193): when the image
loads and a 2D context is available, the pixel data is traced to SVG
markup and the artifact list is *replaced* by the singleton list holding
the new SVG artifact (`setConvertedFiles([{…}])`, not an append), with
`isConverting` reset; if the image never loads or no context is available,
nothing changes and `isConverting` stays set.  Returns the artifact list,
the produced markup (if any), and the `isConverting` flag; the object URL
for the generated SVG blob is passed in. -/
def convertRasterToSvg (env : TraceEnv) (threshold : Nat) (fileName svgUrl : String)
    (prev : List ConvertedFile) : List ConvertedFile × Option String × Bool :=
  match env.imgLoad with
  | .fails => (prev, none, true)
  | .loads =>
    if env.ctxOk = false then (prev, none, true)
    else
      ([⟨fileName, svgUrl, "SVG"⟩],
        some (convertImageDataToSvg env.pixels env.imgWidth env.imgHeight threshold), false)

/-- The spec's example input: an 8×8 all-black, fully opaque pixel buffer
(64 RGBA quadruples `0,0,0,255`). -/
def black8 : List Nat := (List.replicate 64 [0, 0, 0, 255]).flatten

/-- An 8×8 buffer whose only dark pixel is the origin: its region trace
collects a single point, below the 3-point minimum. -/
def dark1 : List Nat := [0, 0, 0, 255] ++ (List.replicate 63 [255, 255, 255, 255]).flatten

/-- An all-white pixel buffer of the given extent: every pixel's red, green
and blue channel reads 255. -/
def AllWhite (data : List Nat) (width height : Nat) : Prop :=
  ∀ i < width * height, channel data (i * 4) = 255 ∧
    channel data (i * 4 + 1) = 255 ∧ channel data (i * 4 + 2) = 255

/-! ## Helper lemmas about the flood-fill loop -/

theorem traceLoop_nil (data : List Nat) (width height threshold : Nat)
    (visited points : List (Int × Int)) :
    traceLoop data width height threshold [] visited points = (points, visited) := by
  simp [traceLoop]

theorem traceLoop_cons_skip (data : List Nat) (width height threshold : Nat)
    (p : Int × Int) (rest visited points : List (Int × Int))
    (h50 : points.length < 50)
    (hskip : p ∈ visited ∨ p.1 < 0 ∨ (width : Int) ≤ p.1 ∨ p.2 < 0 ∨ (height : Int) ≤ p.2) :
    traceLoop data width height threshold (p :: rest) visited points =
      traceLoop data width height threshold rest visited points := by
  rw [traceLoop]
  simp [h50, hskip]

theorem traceLoop_cons_bright (data : List Nat) (width height threshold : Nat)
    (p : Int × Int) (rest visited points : List (Int × Int))
    (h50 : points.length < 50)
    (hskip : ¬(p ∈ visited ∨ p.1 < 0 ∨ (width : Int) ≤ p.1 ∨ p.2 < 0 ∨ (height : Int) ≤ p.2))
    (hbr : threshold ≤ brightnessAt data width p.1 p.2) :
    traceLoop data width height threshold (p :: rest) visited points =
      traceLoop data width height threshold rest visited points := by
  rw [traceLoop]
  simp [h50, hskip, hbr]

theorem traceLoop_cons_visit (data : List Nat) (width height threshold : Nat)
    (p : Int × Int) (rest visited points : List (Int × Int))
    (h50 : points.length < 50)
    (hskip : ¬(p ∈ visited ∨ p.1 < 0 ∨ (width : Int) ≤ p.1 ∨ p.2 < 0 ∨ (height : Int) ≤ p.2))
    (hbr : brightnessAt data width p.1 p.2 < threshold) :
    traceLoop data width height threshold (p :: rest) visited points =
      traceLoop data width height threshold (pushNeighbors p rest)
        (p :: visited) (points ++ [p]) := by
  rw [traceLoop]
  simp [h50, hskip, Nat.not_le.mpr hbr]

theorem traceLoop_cons_cap (data : List Nat) (width height threshold : Nat)
    (p : Int × Int) (rest visited points : List (Int × Int))
    (h50 : ¬points.length < 50) :
    traceLoop data width height threshold (p :: rest) visited points =
      (points, visited) := by
  rw [traceLoop]
  simp [h50]

theorem pushNeighbors_eq (p : Int × Int) (stack : List (Int × Int)) :
    pushNeighbors p stack =
      (p.1 + 4, p.2 + 4) :: (p.1 + 4, p.2) :: (p.1 + 4, p.2 - 4) ::
      (p.1, p.2 + 4) :: (p.1, p.2 - 4) :: (p.1 - 4, p.2 + 4) ::
      (p.1 - 4, p.2) :: (p.1 - 4, p.2 - 4) :: stack := by
  simp [pushNeighbors, neighborOffsets]
  norm_num [sub_eq_add_neg]

/-- Every coordinate in the loop's final visited set was already visited or is
an in-bounds point whose brightness is strictly below the threshold: a point
rejected on brightness or bounds grounds is never marked visited. -/
theorem traceLoop_visited_sound (data : List Nat) (width height threshold : Nat)
    (stack visited points : List (Int × Int)) (q : Int × Int)
    (hq : q ∈ (traceLoop data width height threshold stack visited points).2) :
    q ∈ visited ∨ (0 ≤ q.1 ∧ q.1 < (width : Int) ∧ 0 ≤ q.2 ∧ q.2 < (height : Int) ∧
      brightnessAt data width q.1 q.2 < threshold) := by
  induction stack, visited, points using traceLoop.induct data width height threshold with
  | case1 visited points =>
    rw [traceLoop_nil] at hq
    exact .inl hq
  | case2 visited points p rest h50 hskip ih =>
    rw [traceLoop_cons_skip data width height threshold p rest visited points h50 hskip] at hq
    exact ih hq
  | case3 visited points p rest h50 hskip hbr ih =>
    rw [traceLoop_cons_bright data width height threshold p rest visited points h50 hskip hbr] at hq
    exact ih hq
  | case4 visited points p rest h50 hskip hbr ih =>
    rw [traceLoop_cons_visit data width height threshold p rest visited points h50 hskip
      (Nat.not_le.mp hbr)] at hq
    rcases ih hq with h | h
    · rcases List.mem_cons.mp h with h | h
      · subst h
        push_neg at hskip
        exact .inr ⟨hskip.2.1, hskip.2.2.1, hskip.2.2.2.1, hskip.2.2.2.2, Nat.not_le.mp hbr⟩
      · exact .inl h
    · exact .inr h
  | case5 visited points p rest h50 =>
    rw [traceLoop_cons_cap data width height threshold p rest visited points h50] at hq
    exact .inl hq

/-- C1: In every region trace, a popped point that is already visited or out
of bounds is skipped; a popped in-bounds unvisited point whose brightness is
at or above the threshold is skipped without being marked visited (no point
rejected on brightness grounds ever enters the visited set, so it can later
serve as a new seed); otherwise the point is marked visited, appended to the
region's point list, and its 8 stride-4 grid neighbors (offsets -4, 0, +4 in
each axis, the zero offset excluded) are all pushed onto the stack — the
explicit stack below shows them individually, so the same coordinate can
occur several times in the stack before being popped. -/
theorem trace_pop_step_spec (data : List Nat) (width height threshold : Nat) :
    (∀ (p : Int × Int) (rest visited points : List (Int × Int)),
      points.length < 50 →
      (p ∈ visited ∨ p.1 < 0 ∨ (width : Int) ≤ p.1 ∨ p.2 < 0 ∨ (height : Int) ≤ p.2) →
      traceLoop data width height threshold (p :: rest) visited points =
        traceLoop data width height threshold rest visited points) ∧
    (∀ (p : Int × Int) (rest visited points : List (Int × Int)),
      points.length < 50 →
      p ∉ visited → 0 ≤ p.1 → p.1 < (width : Int) → 0 ≤ p.2 → p.2 < (height : Int) →
      threshold ≤ brightnessAt data width p.1 p.2 →
      traceLoop data width height threshold (p :: rest) visited points =
        traceLoop data width height threshold rest visited points) ∧
    (∀ (p : Int × Int) (rest visited points : List (Int × Int)),
      points.length < 50 →
      p ∉ visited → 0 ≤ p.1 → p.1 < (width : Int) → 0 ≤ p.2 → p.2 < (height : Int) →
      brightnessAt data width p.1 p.2 < threshold →
      traceLoop data width height threshold (p :: rest) visited points =
        traceLoop data width height threshold
          ((p.1 + 4, p.2 + 4) :: (p.1 + 4, p.2) :: (p.1 + 4, p.2 - 4) ::
           (p.1, p.2 + 4) :: (p.1, p.2 - 4) :: (p.1 - 4, p.2 + 4) ::
           (p.1 - 4, p.2) :: (p.1 - 4, p.2 - 4) :: rest)
          (p :: visited) (points ++ [p])) ∧
    (∀ (stack visited points : List (Int × Int)) (q : Int × Int),
      q ∈ (traceLoop data width height threshold stack visited points).2 →
      q ∈ visited ∨ (0 ≤ q.1 ∧ q.1 < (width : Int) ∧ 0 ≤ q.2 ∧ q.2 < (height : Int) ∧
        brightnessAt data width q.1 q.2 < threshold)) := by
  refine ⟨?_, ?_, ?_, ?_⟩
  · intro p rest visited points h50 hskip
    exact traceLoop_cons_skip data width height threshold p rest visited points h50 hskip
  · intro p rest visited points h50 hv hx0 hxw hy0 hyh hbr
    refine traceLoop_cons_bright data width height threshold p rest visited points h50 ?_ hbr
    push_neg
    exact ⟨hv, hx0, hxw, hy0, hyh⟩
  · intro p rest visited points h50 hv hx0 hxw hy0 hyh hbr
    rw [traceLoop_cons_visit data width height threshold p rest visited points h50
      (by push_neg; exact ⟨hv, hx0, hxw, hy0, hyh⟩) hbr]
    rw [pushNeighbors_eq]
  · exact fun stack visited points q hq =>
      traceLoop_visited_sound data width height threshold stack visited points q hq

/-- Witness for C1: the visiting branch at a concrete dark in-bounds point. -/
theorem trace_pop_step_spec_witness :
    traceLoop [] 8 8 128 [((0 : Int), (0 : Int))] [] [] =
      traceLoop [] 8 8 128
        [((4 : Int), (4 : Int)), (4, 0), (4, -4), (0, 4), (0, -4), (-4, 4), (-4, 0), (-4, -4)]
        [((0 : Int), (0 : Int))] ([] ++ [((0 : Int), (0 : Int))]) :=
  (trace_pop_step_spec [] 8 8 128).2.2.1 (0, 0) [] [] [] (by decide) (by decide)
    (by decide) (by decide) (by decide) (by decide) (by decide)

/-! ## Decimal-representation lemmas: paths render integers as digit strings,
so the command letters can be counted in the emitted markup. -/

theorem digitChar_lt_ten_ne_L (m : Nat) (hm : m < 10) : Nat.digitChar m ≠ 'L' := by
  revert hm
  revert m
  decide

theorem mem_toDigitsCore_ten (fuel : Nat) :
    ∀ (n : Nat) (acc : List Char) (c : Char), c ∈ Nat.toDigitsCore 10 fuel n acc →
      c ∈ acc ∨ ∃ m, m < 10 ∧ c = Nat.digitChar m := by
  induction fuel with
  | zero =>
    intro n acc c hc
    rw [Nat.toDigitsCore] at hc
    exact .inl hc
  | succ f ih =>
    intro n acc c hc
    rw [Nat.toDigitsCore] at hc
    by_cases h : n / 10 = 0
    · simp only [h, if_true, List.mem_cons] at hc
      rcases hc with hc | hc
      · exact .inr ⟨n % 10, Nat.mod_lt n (by norm_num), hc⟩
      · exact .inl hc
    · simp only [h, if_false] at hc
      rcases ih (n / 10) ((n % 10).digitChar :: acc) c hc with h' | h'
      · rcases List.mem_cons.mp h' with h'' | h''
        · exact .inr ⟨n % 10, Nat.mod_lt n (by norm_num), h''⟩
        · exact .inl h''
      · exact .inr h'

theorem mem_toString_nat (n : Nat) (c : Char) (hc : c ∈ (toString n).toList) :
    ∃ m, m < 10 ∧ c = Nat.digitChar m := by
  have : (toString n).toList = Nat.toDigitsCore 10 (n + 1) n [] := rfl
  rw [this] at hc
  rcases mem_toDigitsCore_ten (n + 1) n [] c hc with h | h
  · simp at h
  · exact h

theorem mem_toString_int (i : Int) (c : Char) (hc : c ∈ (toString i).toList) :
    c = '-' ∨ ∃ m, m < 10 ∧ c = Nat.digitChar m := by
  cases i with
  | ofNat n => exact .inr (mem_toString_nat n c hc)
  | negSucc n =>
    have : (toString (Int.negSucc n)).toList = '-' :: (toString (n + 1)).toList := rfl
    rw [this] at hc
    rcases List.mem_cons.mp hc with h | h
    · exact .inl h
    · exact .inr (mem_toString_nat (n + 1) c h)

/-- The count of `L` characters in a string; every line-drawing command of an
emitted path contributes exactly one `L`, and nothing else in a path string
does (coordinates are decimal digits with an optional minus sign). -/
def countL (s : String) : Nat := s.toList.count 'L'

theorem countL_append (s t : String) : countL (s ++ t) = countL s + countL t := by
  have : (s ++ t).toList = s.toList ++ t.toList := rfl
  simp [countL, this, List.count_append]

theorem countL_toString_int (i : Int) : countL (toString i) = 0 := by
  refine List.count_eq_zero.mpr fun hmem => ?_
  rcases mem_toString_int i 'L' hmem with h | ⟨m, hm, h⟩
  · exact absurd h (by decide)
  · exact absurd h.symm (digitChar_lt_ten_ne_L m hm)

theorem countL_line_foldl (rest : List (Int × Int)) :
    ∀ acc : String,
      countL (rest.foldl
        (fun acc q => acc ++ " L " ++ toString q.1 ++ " " ++ toString q.2) acc) =
        countL acc + rest.length := by
  induction rest with
  | nil => intro acc; simp
  | cons q qs ih =>
    intro acc
    rw [List.foldl_cons, ih]
    simp [countL_append, countL_toString_int]
    have h1 : countL " L " = 1 := by decide
    have h2 : countL " " = 0 := by decide
    omega

theorem countL_buildPath (p : Int × Int) (rest : List (Int × Int)) :
    countL (buildPath (p :: rest)) = rest.length := by
  show countL ((rest.foldl
    (fun acc q => acc ++ " L " ++ toString q.1 ++ " " ++ toString q.2)
    ("M " ++ toString p.1 ++ " " ++ toString p.2)) ++ " Z") = rest.length
  rw [countL_append, countL_line_foldl]
  have h1 : countL " Z" = 0 := by decide
  have h2 : countL "M " = 0 := by decide
  have h3 : countL " " = 0 := by decide
  simp [countL_append, countL_toString_int, h1, h2, h3]

/-- The flood-fill loop never grows the point list beyond 50 entries. -/
theorem traceLoop_points_le (data : List Nat) (width height threshold : Nat)
    (stack visited points : List (Int × Int)) (hp : points.length ≤ 50) :
    (traceLoop data width height threshold stack visited points).1.length ≤ 50 := by
  induction stack, visited, points using traceLoop.induct data width height threshold with
  | case1 visited points =>
    rw [traceLoop_nil]
    exact hp
  | case2 visited points p rest h50 hskip ih =>
    rw [traceLoop_cons_skip data width height threshold p rest visited points h50 hskip]
    exact ih hp
  | case3 visited points p rest h50 hskip hbr ih =>
    rw [traceLoop_cons_bright data width height threshold p rest visited points h50 hskip hbr]
    exact ih hp
  | case4 visited points p rest h50 hskip hbr ih =>
    rw [traceLoop_cons_visit data width height threshold p rest visited points h50 hskip
      (Nat.not_le.mp hbr)]
    exact ih (by simp; omega)
  | case5 visited points p rest h50 =>
    rw [traceLoop_cons_cap data width height threshold p rest visited points h50]
    exact hp

/-- C3: every region trace terminates with at most 50 collected points — the
loop stops once the stack is empty or the point count reaches the hard cap
of 50 (termination is inherent in `traceLoop` being a well-founded Lean
function of the measure `8 * (50 - points) + stack`) — and consequently the
emitted path string of any trace contains at most 50 line-drawing `L`
commands (in fact at most 49, one per collected point after the first). -/
theorem trace_point_cap (data : List Nat) (width height threshold : Nat)
    (startX startY : Int) (visited : List (Int × Int)) :
    (traceLoop data width height threshold [(startX, startY)] visited []).1.length ≤ 50 ∧
    countL (tracePath startX startY data width height threshold visited).1 ≤ 50 := by
  refine ⟨traceLoop_points_le data width height threshold _ visited [] (by simp), ?_⟩
  unfold tracePath
  by_cases h : (traceLoop data width height threshold [(startX, startY)] visited []).1.length < 3
  · simp only [h, if_true]
    decide
  · simp only [h, if_false]
    rcases hpts : (traceLoop data width height threshold [(startX, startY)] visited []).1 with
      _ | ⟨p, rest⟩
    · simp [buildPath, countL]
    · have hle := traceLoop_points_le data width height threshold
        [(startX, startY)] visited [] (by simp)
      rw [hpts] at hle
      rw [countL_buildPath]
      simp at hle
      omega

/-! ## Length lemmas for emitted path strings -/

theorem toDigitsCore_length_le (fuel : Nat) :
    ∀ (n : Nat) (acc : List Char), acc.length ≤ (Nat.toDigitsCore 10 fuel n acc).length := by
  induction fuel with
  | zero =>
    intro n acc
    rw [Nat.toDigitsCore]
  | succ f ih =>
    intro n acc
    rw [Nat.toDigitsCore]
    by_cases h : n / 10 = 0
    · simp [h]
    · simp only [h, if_false]
      calc acc.length ≤ ((n % 10).digitChar :: acc).length := by simp
        _ ≤ _ := ih (n / 10) ((n % 10).digitChar :: acc)

theorem one_le_length_toString_nat (n : Nat) : 1 ≤ (toString n).length := by
  have h : (toString n).length = (Nat.toDigitsCore 10 (n + 1) n []).length := rfl
  rw [h, Nat.toDigitsCore]
  by_cases h0 : n / 10 = 0
  · simp [h0]
  · simp only [h0, if_false]
    calc 1 = ([(n % 10).digitChar] : List Char).length := rfl
      _ ≤ _ := toDigitsCore_length_le (n := n / 10) n ([(n % 10).digitChar])

theorem one_le_length_toString_int (i : Int) : 1 ≤ (toString i).length := by
  cases i with
  | ofNat n => exact one_le_length_toString_nat n
  | negSucc n =>
    have h : toString (Int.negSucc n) = "-" ++ toString (n + 1) := rfl
    rw [h, String.length_append]
    have := one_le_length_toString_nat (n + 1)
    omega

theorem length_line_foldl (rest : List (Int × Int)) :
    ∀ acc : String, acc.length + 6 * rest.length ≤
      (rest.foldl
        (fun acc q => acc ++ " L " ++ toString q.1 ++ " " ++ toString q.2) acc).length := by
  induction rest with
  | nil => intro acc; simp
  | cons q qs ih =>
    intro acc
    rw [List.foldl_cons]
    have hq := ih (acc ++ " L " ++ toString q.1 ++ " " ++ toString q.2)
    have h1 := one_le_length_toString_int q.1
    have h2 := one_le_length_toString_int q.2
    simp only [String.length_append, List.length_cons] at hq ⊢
    have h3 : (" L " : String).length = 3 := by decide
    have h4 : (" " : String).length = 1 := by decide
    omega

theorem ten_lt_length_buildPath (p : Int × Int) (rest : List (Int × Int))
    (h : 2 ≤ rest.length) : 10 < (buildPath (p :: rest)).length := by
  show 10 < ((rest.foldl
    (fun acc q => acc ++ " L " ++ toString q.1 ++ " " ++ toString q.2)
    ("M " ++ toString p.1 ++ " " ++ toString p.2)) ++ " Z").length
  rw [String.length_append]
  have hf := length_line_foldl rest ("M " ++ toString p.1 ++ " " ++ toString p.2)
  have h1 := one_le_length_toString_int p.1
  have h2 := one_le_length_toString_int p.2
  simp only [String.length_append] at hf
  have h3 : ("M " : String).length = 2 := by decide
  have h4 : (" " : String).length = 1 := by decide
  have h5 : (" Z" : String).length = 2 := by decide
  omega

/-- C4: a region trace that collects fewer than 3 points is discarded — the
path string is empty and the sampling loop appends no path element for that
seed — while a region with 3 or more collected points is emitted as exactly
one path element whose geometry is `buildPath` of the points (move to the
first point, a line to each subsequent point in collection order, close)
and whose fill/alpha come from the origin sample.  The seed hypotheses are
the sampling loop's conditions for starting a trace at `xy`. -/
theorem trace_min_points_emission (data : List Nat) (width height threshold : Nat)
    (xy : Nat × Nat) (visited : List (Int × Int)) (elems : List SvgPathElem)
    (hnv : ((xy.1 : Int), (xy.2 : Int)) ∉ visited)
    (hbr : (channel data ((xy.2 * width + xy.1) * 4) +
        channel data ((xy.2 * width + xy.1) * 4 + 1) +
        channel data ((xy.2 * width + xy.1) * 4 + 2)) / 3 < threshold)
    (ha : 128 < channel data ((xy.2 * width + xy.1) * 4 + 3)) :
    ((traceLoop data width height threshold
        [((xy.1 : Int), (xy.2 : Int))] visited []).1.length < 3 →
      tracePath xy.1 xy.2 data width height threshold visited =
        ("", (traceLoop data width height threshold
          [((xy.1 : Int), (xy.2 : Int))] visited []).2) ∧
      processSample data width height threshold (visited, elems) xy =
        ((traceLoop data width height threshold
          [((xy.1 : Int), (xy.2 : Int))] visited []).2, elems)) ∧
    (3 ≤ (traceLoop data width height threshold
        [((xy.1 : Int), (xy.2 : Int))] visited []).1.length →
      tracePath xy.1 xy.2 data width height threshold visited =
        (buildPath (traceLoop data width height threshold
          [((xy.1 : Int), (xy.2 : Int))] visited []).1,
         (traceLoop data width height threshold
          [((xy.1 : Int), (xy.2 : Int))] visited []).2) ∧
      processSample data width height threshold (visited, elems) xy =
        ((traceLoop data width height threshold
            [((xy.1 : Int), (xy.2 : Int))] visited []).2,
          elems ++ [⟨buildPath (traceLoop data width height threshold
              [((xy.1 : Int), (xy.2 : Int))] visited []).1,
            "rgb(" ++ toString (channel data ((xy.2 * width + xy.1) * 4)) ++ "," ++
              toString (channel data ((xy.2 * width + xy.1) * 4 + 1)) ++ "," ++
              toString (channel data ((xy.2 * width + xy.1) * 4 + 2)) ++ ")",
            channel data ((xy.2 * width + xy.1) * 4 + 3)⟩])) := by
  constructor
  · intro hlt
    have htp : tracePath xy.1 xy.2 data width height threshold visited =
        ("", (traceLoop data width height threshold
          [((xy.1 : Int), (xy.2 : Int))] visited []).2) := by
      unfold tracePath
      simp only [hlt, if_true]
    refine ⟨htp, ?_⟩
    unfold processSample
    simp [hnv, hbr, ha, htp]
  · intro hge
    have htp : tracePath xy.1 xy.2 data width height threshold visited =
        (buildPath (traceLoop data width height threshold
          [((xy.1 : Int), (xy.2 : Int))] visited []).1,
         (traceLoop data width height threshold
          [((xy.1 : Int), (xy.2 : Int))] visited []).2) := by
      unfold tracePath
      simp only [Nat.not_lt.mpr hge, if_false]
    refine ⟨htp, ?_⟩
    have hlen : 10 < (buildPath (traceLoop data width height threshold
        [((xy.1 : Int), (xy.2 : Int))] visited []).1).length := by
      rcases hpts : (traceLoop data width height threshold
          [((xy.1 : Int), (xy.2 : Int))] visited []).1 with _ | ⟨p, rest⟩
      · rw [hpts] at hge; simp at hge
      · rw [hpts] at hge
        simp only [List.length_cons] at hge
        exact ten_lt_length_buildPath p rest (by omega)
    unfold processSample
    simp [hnv, hbr, ha, htp, hlen]

/-- Witness for C4: on the buffer whose only dark pixel is the origin, the
trace collects one point, the path string is empty and no element is
emitted. -/
theorem trace_min_points_emission_witness :
    (traceLoop dark1 8 8 128
      [(((0, 0) : Nat × Nat).1, ((0, 0) : Nat × Nat).2)] [] []).1.length < 3 ∧
    processSample dark1 8 8 128 ([], []) (0, 0) =
      ((traceLoop dark1 8 8 128 [(((0, 0) : Nat × Nat).1, ((0, 0) : Nat × Nat).2)] [] []).2,
        []) := by
  have hlt : (traceLoop dark1 8 8 128
      [(((0, 0) : Nat × Nat).1, ((0, 0) : Nat × Nat).2)] [] []).1.length < 3 := by
    simp +decide [traceLoop, pushNeighbors, neighborOffsets, brightnessAt, channel, dark1]
  refine ⟨hlt, ?_⟩
  exact ((trace_min_points_emission dark1 8 8 128 (0, 0) [] []
    (by decide) (by decide) (by decide)).1 hlt).2

theorem extractPaths_eq_filterMap (attrs : List (Option String))
    (hne : ∀ s : String, some s ∈ attrs → s ≠ "") :
    extractPaths attrs = attrs.filterMap id := by
  induction attrs with
  | nil => rfl
  | cons o os ih =>
    have hos : ∀ s : String, some s ∈ os → s ≠ "" :=
      fun s hs => hne s (List.mem_cons_of_mem o hs)
    cases o with
    | none =>
      have hstep : extractPaths (none :: os) = extractPaths os := by
        simp [extractPaths, List.filterMap_cons, jsTruthy]
      rw [hstep, ih hos, List.filterMap_cons]
      rfl
    | some s =>
      have hs : s ≠ "" := hne s (List.mem_cons_self _ _)
      have hstep : extractPaths (some s :: os) = s :: extractPaths os := by
        simp [extractPaths, List.filterMap_cons, jsTruthy, hs]
      rw [hstep, ih hos, List.filterMap_cons]
      rfl

theorem length_filterMap_id (attrs : List (Option String)) :
    (attrs.filterMap id).length = attrs.countP (fun o => o.isSome) := by
  induction attrs with
  | nil => rfl
  | cons o os ih =>
    cases o with
    | none => simp [List.filterMap_cons, List.countP_cons, ih]
    | some s => simp [List.filterMap_cons, List.countP_cons, ih]

/-- C5 counterexample: a document with exactly one path element that *has*
the geometry attribute, with the empty string as its value.  The claim
promises exactly one returned string; `.filter(Boolean)` also drops the
empty string, so the extractor returns none. -/
theorem extractPaths_empty_attr_counterexample :
    extractPaths [some ""] = [] ∧ extractPaths [some ""] ≠ [""] := by decide

/-- C5 (amended): for every document in which no path element carries an
*empty* geometry attribute value, the extractor returns exactly the
attribute values of the attribute-bearing elements in document order —
elements lacking the attribute are dropped without shifting the order of
the rest — and the result length is the number of attribute-bearing
elements. -/
theorem extractPaths_document_order (attrs : List (Option String))
    (hne : ∀ s : String, some s ∈ attrs → s ≠ "") :
    extractPaths attrs = attrs.filterMap id ∧
    (extractPaths attrs).length = attrs.countP (fun o => o.isSome) := by
  refine ⟨extractPaths_eq_filterMap attrs hne, ?_⟩
  rw [extractPaths_eq_filterMap attrs hne]
  exact length_filterMap_id attrs

/-- Witness for C5: a three-element document, the middle element lacking the
attribute. -/
theorem extractPaths_document_order_witness :
    extractPaths [some "M 0 0", none, some "L 1 1"] = ["M 0 0", "L 1 1"] ∧
    (extractPaths [some "M 0 0", none, some "L 1 1"]).length = 2 := by
  have hne : ∀ s : String, some s ∈ [some "M 0 0", none, some "L 1 1"] → s ≠ "" := by
    intro s hs
    simp only [List.mem_cons, List.not_mem_nil, or_false] at hs
    rcases hs with h | h | h
    · rw [Option.some_inj.mp h]; decide
    · exact absurd h (by simp)
    · rw [Option.some_inj.mp h]; decide
  have h := extractPaths_document_order [some "M 0 0", none, some "L 1 1"] hne
  exact ⟨h.1.trans (by decide), h.2.trans (by decide)⟩

set_option maxRecDepth 10000 in
theorem black8_convertLoop_eval :
    convertLoop black8 8 8 128 =
      ([(0, 4), (4, 0), (4, 4), (0, 0)],
        [⟨"M 0 0 L 4 4 L 4 0 L 0 4 Z", "rgb(0,0,0)", 255⟩]) := by
  simp +decide [convertLoop, sampleCoords, processSample, tracePath, traceLoop, pushNeighbors,
    neighborOffsets, brightnessAt, channel, black8, buildPath, List.range',
    List.flatMap, List.foldl, List.getD]

set_option maxRecDepth 10000 in
theorem black8_traceLoop_eval :
    traceLoop black8 8 8 128 [((0 : Int), (0 : Int))] [] [] =
      ([(0, 0), (4, 4), (4, 0), (0, 4)], [(0, 4), (4, 0), (4, 4), (0, 0)]) := by
  simp +decide [traceLoop, pushNeighbors, neighborOffsets, brightnessAt, channel, black8,
    List.getD]

/-- C6: on the 8×8 all-black fully opaque buffer with threshold 128 the
tracer emits exactly one path element; its trace visits the four points of
the 2×2 stride-4 sample grid (well under the 50-point cap, and every later
sample is already visited), the fill is `rgb(0,0,0)` and the serialized
opacity is `1`. -/
theorem black8_single_path :
    (convertLoop black8 8 8 128).2 =
      [⟨"M 0 0 L 4 4 L 4 0 L 0 4 Z", "rgb(0,0,0)", 255⟩] ∧
    (traceLoop black8 8 8 128 [((0 : Int), (0 : Int))] [] []).1 =
      [(0, 0), (4, 4), (4, 0), (0, 4)] ∧
    (traceLoop black8 8 8 128 [((0 : Int), (0 : Int))] [] []).1.length ≤ 50 ∧
    opacityString 255 = "1" ∧
    convertImageDataToSvg black8 8 8 128 =
      "<svg width=\"8\" height=\"8\" xmlns=\"http://www.w3.org/2000/svg\">\n" ++
        "<path d=\"M 0 0 L 4 4 L 4 0 L 0 4 Z\" fill=\"rgb(0,0,0)\" opacity=\"1\" />\n" ++
        "\n</svg>" := by
  refine ⟨by rw [black8_convertLoop_eval], by rw [black8_traceLoop_eval],
    by rw [black8_traceLoop_eval]; decide, by decide, ?_⟩
  rw [convertImageDataToSvg, black8_convertLoop_eval]
  decide

/-- Every sampled grid coordinate lies inside the buffer: the loops run while
`y < height` and `x < width`. -/
theorem mem_sampleCoords {width height : Nat} {xy : Nat × Nat}
    (h : xy ∈ sampleCoords width height) : xy.1 < width ∧ xy.2 < height := by
  rcases xy with ⟨x, y⟩
  simp only [sampleCoords, List.mem_flatMap, List.mem_map, List.mem_range'] at h
  obtain ⟨y', ⟨i, hi, rfl⟩, ⟨x', ⟨j, hj, rfl⟩, hxy⟩⟩ := h
  obtain ⟨rfl, rfl⟩ := Prod.mk.injEq .. ▸ hxy
  constructor <;> omega

/-- On an all-white buffer with a threshold of at most 255, no sample seeds a
trace: `processSample` is the identity on every in-bounds sample. -/
theorem processSample_white (data : List Nat) (width height threshold : Nat)
    (ht : threshold ≤ 255) (hw : AllWhite data width height)
    (st : List (Int × Int) × List SvgPathElem) (xy : Nat × Nat)
    (hx : xy.1 < width) (hy : xy.2 < height) :
    processSample data width height threshold st xy = st := by
  unfold processSample
  by_cases hv : ((xy.1 : Int), (xy.2 : Int)) ∈ st.1
  · simp [hv]
  · have hi : xy.2 * width + xy.1 < width * height := by
      calc xy.2 * width + xy.1 < xy.2 * width + width := by omega
        _ = (xy.2 + 1) * width := by ring
        _ ≤ height * width := Nat.mul_le_mul_right width (by omega)
        _ = width * height := Nat.mul_comm height width
    have hch := hw (xy.2 * width + xy.1) hi
    have hno : ¬((channel data ((xy.2 * width + xy.1) * 4) +
        channel data ((xy.2 * width + xy.1) * 4 + 1) +
        channel data ((xy.2 * width + xy.1) * 4 + 2)) / 3 < threshold ∧
        128 < channel data ((xy.2 * width + xy.1) * 4 + 3)) := by
      rw [hch.1, hch.2.1, hch.2.2]
      rintro ⟨hlt, -⟩
      omega
    simp [hv, hno]

theorem foldl_processSample_white (data : List Nat) (width height threshold : Nat)
    (ht : threshold ≤ 255) (hw : AllWhite data width height) :
    ∀ (l : List (Nat × Nat)), (∀ xy ∈ l, xy.1 < width ∧ xy.2 < height) →
      ∀ st, l.foldl (processSample data width height threshold) st = st := by
  intro l
  induction l with
  | nil => intro _ st; rfl
  | cons xy l ih =>
    intro hmem st
    rw [List.foldl_cons,
      processSample_white data width height threshold ht hw st xy
        (hmem xy (List.mem_cons_self _ _)).1 (hmem xy (List.mem_cons_self _ _)).2]
    exact ih (fun z hz => hmem z (List.mem_cons_of_mem xy hz)) st

/-- C7: on an all-white pixel buffer of any extent, with any threshold at
most 255, the tracer emits no path element and the output markup is the
bare root element. -/
theorem all_white_no_paths (data : List Nat) (width height threshold : Nat)
    (hw : AllWhite data width height) (ht : threshold ≤ 255) :
    (convertLoop data width height threshold).2 = [] ∧
    convertImageDataToSvg data width height threshold =
      "<svg width=\"" ++ toString width ++ "\" height=\"" ++ toString height ++
        "\" xmlns=\"http://www.w3.org/2000/svg\">\n" ++ "" ++ "\n</svg>" := by
  have hcl : convertLoop data width height threshold = ([], []) :=
    foldl_processSample_white data width height threshold ht hw
      (sampleCoords width height) (fun xy hxy => mem_sampleCoords hxy) ([], [])
  refine ⟨by rw [hcl], ?_⟩
  rw [convertImageDataToSvg, hcl]
  rfl

/-- Witness for C7: a 4×4 buffer of all-255 bytes at threshold 255. -/
theorem all_white_no_paths_witness :
    (convertLoop (List.replicate 64 255) 4 4 255).2 = [] ∧
    convertImageDataToSvg (List.replicate 64 255) 4 4 255 =
      "<svg width=\"" ++ toString (4 : Nat) ++ "\" height=\"" ++ toString (4 : Nat) ++
        "\" xmlns=\"http://www.w3.org/2000/svg\">\n" ++ "" ++ "\n</svg>" :=
  all_white_no_paths (List.replicate 64 255) 4 4 255
    (by unfold AllWhite; decide) (by decide)

/-- C8: the raster-to-vector tracer is deterministic — two runs on equal
pixel buffers, dimensions and thresholds produce byte-identical output
markup.  The embedding is a pure function of exactly these inputs: the
exploration order is fixed by the LIFO stack and the fixed neighbor
iteration order, and no other state enters the computation. -/
theorem tracer_deterministic (data₁ data₂ : List Nat) (w₁ w₂ h₁ h₂ t₁ t₂ : Nat)
    (hd : data₁ = data₂) (hw : w₁ = w₂) (hh : h₁ = h₂) (ht : t₁ = t₂) :
    convertImageDataToSvg data₁ w₁ h₁ t₁ = convertImageDataToSvg data₂ w₂ h₂ t₂ := by
  subst hd hw hh ht
  rfl

/-- Witness for C8: two runs on the black 8×8 example. -/
theorem tracer_deterministic_witness :
    convertImageDataToSvg black8 8 8 128 = convertImageDataToSvg black8 8 8 128 :=
  tracer_deterministic black8 black8 8 8 8 8 128 128 rfl rfl rfl rfl

/-- C2: the older version's `convertToFormat` (src/App.tsx line 101) filters
with `f.format !== format`, comparing the stored uppercase tag ("PNG")
against the lowercase parameter ("png"); the filter therefore never
removes anything and a second conversion to the same encoding *appends* a
second artifact instead of replacing the first.  The bidirectional
version's `convertSvgToRaster` (part_000 line 131) compares against
`format.toUpperCase()` and does replace, which is what the spec states. -/
theorem convertToFormat_duplicate_code_bug :
    (convertToFormatUpdate (convertToFormatUpdate [] "png" "a.png" "u1")
        "png" "a.png" "u2").countP (fun f => f.format == "PNG") = 2 ∧
    (convertSvgToRasterUpdate (convertSvgToRasterUpdate [] "png" "a.png" "u1")
        "png" "a.png" "u2").countP (fun f => f.format == "PNG") = 1 := by decide

/-- C9 counterexample: when a 2D context is available but image decoding
fails, the object URL for the source markup is allocated and never revoked
— the source installs no `onerror` handler and `URL.revokeObjectURL` lives
inside `onload`.  The claim promises release "even when image decoding
fails". -/
theorem objectUrl_leak_on_decode_failure :
    (convertSvgToRaster ⟨true, .fails, none⟩ "png" "a.png" []).urlAllocated = true ∧
    (convertSvgToRaster ⟨true, .fails, none⟩ "png" "a.png" []).urlRevoked = false := by
  constructor <;> rfl

/-- C9 (amended): the object URL is released as soon as the decoded image is
available (inside `onload`), regardless of whether the subsequent encoding
succeeds or fails; but when image decoding itself fails the handle is
never released. -/
theorem objectUrl_revoked_on_load (env : RasterEnv) (format fileName : String)
    (prev : List ConvertedFile) (hctx : env.ctxOk = true)
    (hload : env.imgLoad = ImgLoadOutcome.loads) :
    (convertSvgToRaster env format fileName prev).urlRevoked = true := by
  rcases env with ⟨ctxOk, imgLoad, encoded⟩
  simp only at hctx hload
  subst hctx hload
  cases encoded <;> rfl

/-- Witness for C9: a loaded image whose encoding then fails — the URL is
revoked anyway. -/
theorem objectUrl_revoked_on_load_witness :
    (convertSvgToRaster ⟨true, .loads, none⟩ "png" "a.png" []).urlRevoked = true :=
  objectUrl_revoked_on_load ⟨true, .loads, none⟩ "png" "a.png" [] rfl rfl

/-- C10: a successful raster-to-vector conversion *replaces* the whole
artifact list with the singleton holding the new SVG artifact: every
previously held artifact, of any format, is removed. -/
theorem raster_to_svg_sole_artifact (env : TraceEnv) (threshold : Nat)
    (fileName svgUrl : String) (prev : List ConvertedFile)
    (hload : env.imgLoad = ImgLoadOutcome.loads) (hctx : env.ctxOk = true) :
    (convertRasterToSvg env threshold fileName svgUrl prev).1 =
      [⟨fileName, svgUrl, "SVG"⟩] ∧
    ∀ f ∈ prev, f ∈ (convertRasterToSvg env threshold fileName svgUrl prev).1 →
      f = ⟨fileName, svgUrl, "SVG"⟩ := by
  rcases env with ⟨imgLoad, ctxOk, iw, ih, px⟩
  simp only at hctx hload
  subst hctx hload
  refine ⟨rfl, ?_⟩
  intro f hf hmem
  simpa [convertRasterToSvg] using hmem

/-- Witness for C10: converting with a nonempty prior artifact list leaves
only the new SVG artifact. -/
theorem raster_to_svg_sole_artifact_witness :
    (convertRasterToSvg ⟨.loads, true, 0, 0, []⟩ 128 "a.svg" "u2"
      [⟨"a.png", "u1", "PNG"⟩]).1 = [⟨"a.svg", "u2", "SVG"⟩] :=
  (raster_to_svg_sole_artifact ⟨.loads, true, 0, 0, []⟩ 128 "a.svg" "u2"
    [⟨"a.png", "u1", "PNG"⟩] rfl rfl).1
